import Mathlib

/-! Overview.
Verification development for the biometric_integration repository.

The definitions below are a shallow embedding of the device protocol
engine found in the repository sources:

* `services/ebkn_processor.py` — block reassembly (`handle_request`,
  `_start_sequence`, `_append_block`, `_read_sequence`, `_set_last_block`,
  `_get_last_block`, `_clear_sequence`), the hybrid JSON+binary codec
  (`_extract_json_and_bins`, `_json_with_inlined_bins`), wire framing
  (`create_bs_comm_buffer`, `_format_cmd_body`), reply construction
  (`reply_response_code`, `_fail`, `_ok_after_block`) and the top level
  dispatcher catch (`handle_request`, `_handle_send_cmd_result`).
* `doctype/biometric_device_command/biometric_device_command.py` —
  command creation dedup (`add_command`) and the lifecycle sweep
  (`BiometricDeviceCommand.before_save`).
* `services/command_processor.py` — command payload builders
  (`_build_ebkn_payload`) and the attempt-failure bookkeeping
  (`_handle_command_build_failure`).

The persistent stores used by the Python code (a JSON file holding the
block-sequence map, spool files under `partial_data/`, and the frappe
record store) are modelled as association lists keyed by strings; bytes
are modelled as `Nat`.  Machine integers do not overflow in any of the
modelled paths.
-/

namespace Biometric

/-! Association-list store (models Python dicts and the frappe/file stores) -/

def alookup {α : Type} : List (String × α) → String → Option α
  | [], _ => none
  | p :: t, k => if p.1 == k then some p.2 else alookup t k

def aset {α : Type} : List (String × α) → String → α → List (String × α)
  | [], k, v => [(k, v)]
  | p :: t, k, v => if p.1 == k then (k, v) :: t else p :: aset t k v

def aerase {α : Type} : List (String × α) → String → List (String × α)
  | [], _ => []
  | p :: t, k => if p.1 == k then aerase t k else p :: aerase t k

/-! Block reassembler (ebkn_processor.py lines 41-104 and 213-256)

State: `blockMap` models the JSON file behind `_set_last_block` /
`_get_last_block` / `_clear_sequence`; `spool` models the per-key
partial files behind `_append_block` / `_read_sequence` (a missing key
models a missing file). -/

structure ReasmState where
  blockMap : List (String × Nat)
  spool : List (String × List Nat)
deriving DecidableEq

def seqKey (dev req : String) : String := dev ++ "_" ++ req

def setLastBlock (st : ReasmState) (dev req : String) (blk : Nat) : ReasmState :=
  { st with blockMap := aset st.blockMap (seqKey dev req) blk }

def getLastBlock (st : ReasmState) (dev req : String) : Option Nat :=
  alookup st.blockMap (seqKey dev req)

def clearSequence (st : ReasmState) (dev req : String) : ReasmState :=
  { st with blockMap := aerase st.blockMap (seqKey dev req) }

def startSequence (st : ReasmState) (dev req : String) : ReasmState :=
  clearSequence { st with spool := aerase st.spool (seqKey dev req) } dev req

def appendBlock (st : ReasmState) (dev req : String) (data : List Nat) : ReasmState :=
  { st with
    spool := aset st.spool (seqKey dev req)
      (((alookup st.spool (seqKey dev req)).getD []) ++ data) }

def readSequence (st : ReasmState) (dev req : String) : Option (List Nat) :=
  alookup st.spool (seqKey dev req)

inductive BlockResult where
  | cont : BlockResult
  | complete : List Nat → BlockResult
  | error : String → BlockResult
deriving DecidableEq

/-- Embedding of the block-assembly section of `handle_request`
(ebkn_processor.py lines 213-256): block 1 restarts the session, blocks
above 1 must extend the recorded sequence by exactly one, block 0 closes
the session (or is a single-shot payload when no session exists). -/
def handleBlock (st : ReasmState) (dev req : String) (blk : Nat) (raw : List Nat) :
    ReasmState × BlockResult :=
  let last := getLastBlock st dev req
  if blk = 1 then
    let st1 := appendBlock (startSequence st dev req) dev req raw
    (setLastBlock st1 dev req 1, BlockResult.cont)
  else if 1 < blk then
    match last with
    | none => (st, BlockResult.error ("Block sequence mismatch"))
    | some lb =>
      if blk = lb + 1 then
        (setLastBlock (appendBlock st dev req raw) dev req blk, BlockResult.cont)
      else
        (st, BlockResult.error ("Block sequence mismatch"))
  else
    match last with
    | none => (st, BlockResult.complete raw)
    | some _ =>
      let st1 := setLastBlock (appendBlock st dev req raw) dev req 0
      match readSequence st1 dev req with
      | none => (st1, BlockResult.error ("Unable to read spooled data"))
      | some full => (clearSequence st1 dev req, BlockResult.complete full)

/-- Submit a list of chunks with consecutive block numbers starting at `n`. -/
def submitFrom (dev req : String) : ReasmState → Nat → List (List Nat) → ReasmState
  | st, _, [] => st
  | st, n, c :: cs => submitFrom dev req (handleBlock st dev req n c).1 (n + 1) cs

/-! Hybrid payload codec (ebkn_processor.py lines 110-183)

`Json` models the tree returned by `json.loads` for the embedded
envelope.  `_extract_json_and_bins` is embedded in two stages: the
byte-level envelope scan (`findEnvelope`, lines 118-138, valid verbatim
when the bytes up to the closing brace are ASCII so that character and
byte offsets coincide) and the placeholder/segment machinery on the
parsed tree (lines 140-170): `collectPlaceholders` is the depth-first
walk `_recurse`, `splitStream`/`segmentsOf` is the even-split read loop
over `BytesIO`, and `buildDict` is the Python dict built by repeated
`segments[ph] = blob` assignment. -/

inductive Json where
  | obj : List (String × Json) → Json
  | arr : List Json → Json
  | str : String → Json
  | num : Int → Json
  | bool : Bool → Json
  | null : Json

/-- The test `obj.startswith("BIN_")` on a decoded string, written as a
character-level prefix comparison so that it evaluates in the kernel. -/
def isBinPlaceholder (s : String) : Bool :=
  s.toList.take 4 == ("BIN_").toList

mutual

/-- The `_recurse` placeholder walk: depth first, object values before
list items before scalars, recording every string starting with "BIN_"
in encounter order (duplicates recorded once per occurrence). -/
def collectPlaceholders : Json → List String
  | Json.obj kvs => collectFields kvs
  | Json.arr xs => collectItems xs
  | Json.str s => if isBinPlaceholder s then [s] else []
  | Json.num _ => []
  | Json.bool _ => []
  | Json.null => []
termination_by structural j => j

def collectFields : List (String × Json) → List String
  | [] => []
  | (_, v) :: rest => collectPlaceholders v ++ collectFields rest
termination_by structural l => l

def collectItems : List Json → List String
  | [] => []
  | x :: rest => collectPlaceholders x ++ collectItems rest
termination_by structural l => l

end

/-- The segment-reading loop of `_extract_json_and_bins`: every
placeholder but the last reads `q` bytes from the stream, the last one
reads whatever is left. -/
def splitStream (q : Nat) : List String → List Nat → List (String × List Nat)
  | [], _ => []
  | [ph], rest => [(ph, rest)]
  | ph :: ph2 :: phs, rest =>
    (ph, rest.take q) :: splitStream q (ph2 :: phs) (rest.drop q)

/-- The even split with `seg_size = len(remaining) // len(placeholders)`. -/
def segmentsOf (phs : List String) (remaining : List Nat) : List (String × List Nat) :=
  splitStream (remaining.length / phs.length) phs remaining

/-- The Python dict built by the loop `segments[ph] = blob`: assignment
in order, a later occurrence of the same key overwriting the earlier
value. -/
def buildDict {α : Type} (pairs : List (String × α)) : List (String × α) :=
  pairs.foldl (fun d p => aset d p.1 p.2) []

/-- Value at the last occurrence of a key in a pair list (specification
device for proofs about `buildDict`). -/
def lastAssoc {α : Type} (pairs : List (String × α)) (k : String) : Option α :=
  (pairs.reverse.find? (fun p => p.1 == k)).map (fun p => p.2)

/-- The placeholder-to-segment mapping computed by
`_extract_json_and_bins` after the envelope has been parsed: empty when
no placeholder is found, otherwise the dict of the even split. -/
def extractBins (meta : Json) (remaining : List Nat) : List (String × List Nat) :=
  let phs := collectPlaceholders meta
  if phs = [] then [] else buildDict (segmentsOf phs remaining)

/-- Return value of `_extract_json_and_bins` given the parsed envelope
and the trailing bytes after it. -/
def extractJsonAndBins (meta : Json) (remaining : List Nat) :
    Json × List (String × List Nat) :=
  (meta, extractBins meta remaining)

def b64Char (n : Nat) : Char :=
  ("ABCDEFGHIJKLMNOPQRSTUVWXYZabcdefghijklmnopqrstuvwxyz0123456789+/").toList.getD n 'A'

def b64Chunks : List Nat → List Char
  | [] => []
  | [a] => [b64Char (a / 4), b64Char (a % 4 * 16), '=', '=']
  | [a, b] => [b64Char (a / 4), b64Char (a % 4 * 16 + b / 16), b64Char (b % 16 * 4), '=']
  | a :: b :: c :: rest =>
    b64Char (a / 4) :: b64Char (a % 4 * 16 + b / 16) ::
      b64Char (b % 16 * 4 + c / 64) :: b64Char (c % 64) :: b64Chunks rest

/-- RFC 4648 `base64.b64encode` on a byte list. -/
def b64encode (bs : List Nat) : String := String.mk (b64Chunks bs)

mutual

/-- Embedding of `_json_with_inlined_bins` (lines 173-183): every string
that is a key of the binary map is replaced by the base64 text encoding
of its mapped bytes; everything else is rebuilt structurally. -/
def jsonWithInlinedBins : Json → List (String × List Nat) → Json
  | Json.obj kvs, m => Json.obj (inlineFields kvs m)
  | Json.arr xs, m => Json.arr (inlineItems xs m)
  | Json.str s, m =>
    match alookup m s with
    | some bs => Json.str (b64encode bs)
    | none => Json.str s
  | Json.num n, _ => Json.num n
  | Json.bool b, _ => Json.bool b
  | Json.null, _ => Json.null
termination_by structural j _ => j

def inlineFields : List (String × Json) → List (String × List Nat) → List (String × Json)
  | [], _ => []
  | (k, v) :: rest, m => (k, jsonWithInlinedBins v m) :: inlineFields rest m
termination_by structural l _ => l

def inlineItems : List Json → List (String × List Nat) → List Json
  | [], _ => []
  | x :: rest, m => jsonWithInlinedBins x m :: inlineItems rest m
termination_by structural l _ => l

end

/-- Pointwise string replacement used to specify `jsonWithInlinedBins`:
the replacement applied at a string node is a function of the token
alone, so duplicated tokens are always replaced identically. -/
def inlineStr (m : List (String × List Nat)) (s : String) : String :=
  match alookup m s with
  | some bs => b64encode bs
  | none => s

mutual

/-- Structural map over every string value of an envelope tree. -/
def jmapStr (f : String → String) : Json → Json
  | Json.obj kvs => Json.obj (jmapStrFields f kvs)
  | Json.arr xs => Json.arr (jmapStrItems f xs)
  | Json.str s => Json.str (f s)
  | Json.num n => Json.num n
  | Json.bool b => Json.bool b
  | Json.null => Json.null
termination_by structural j => j

def jmapStrFields (f : String → String) : List (String × Json) → List (String × Json)
  | [] => []
  | (k, v) :: rest => (k, jmapStr f v) :: jmapStrFields f rest
termination_by structural l => l

def jmapStrItems (f : String → String) : List Json → List Json
  | [] => []
  | x :: rest => jmapStr f x :: jmapStrItems f rest
termination_by structural l => l

end

/-- Brace scan of `_extract_json_and_bins` (lines 118-138): starting at
the first opening brace with depth 0, find the index of the brace that
closes it.  Index is relative to the scan start. -/
def scanEnd : List Nat → Nat → Nat → Option Nat
  | [], _, _ => none
  | b :: rest, idx, depth =>
    if b = 123 then scanEnd rest (idx + 1) (depth + 1)
    else if b = 125 then
      if depth = 1 then some idx else scanEnd rest (idx + 1) (depth - 1)
    else scanEnd rest (idx + 1) depth

/-- Envelope delimitation of `_extract_json_and_bins`: the slice from
the first opening brace to its matching closing brace, and the trailing
bytes after it.  Raises (models `ValueError`) when no opening brace is
found or the braces never balance. -/
def findEnvelope (raw : List Nat) : Except String (List Nat × List Nat) :=
  match raw.findIdx? (fun b => b = 123) with
  | none => Except.error ("no JSON opening brace found")
  | some start =>
    match scanEnd (raw.drop start) 0 0 with
    | none => Except.error ("unbalanced JSON braces")
    | some rel =>
      Except.ok ((raw.drop start).take (rel + 1), raw.drop (start + rel + 1))

/-! Command queue (biometric_device_command.py, command_processor.py)

A `Cmd` models one *Biometric Device Command* document; the record store
is modelled as a list of documents in creation order.  Timestamps are
seconds since an arbitrary epoch, so the `add_to_date(..., days=d)` of
`before_save` is addition of `d * 86400`. -/

inductive CmdStatus where
  | pending : CmdStatus
  | success : CmdStatus
  | failed : CmdStatus
  | closed : CmdStatus
  | completed : CmdStatus
deriving DecidableEq, BEq

structure Cmd where
  device : String
  user : String
  brand : String
  commandType : String
  status : CmdStatus
  noOfAttempts : Nat := 0
  initiatedOn : Option Nat := none
  closedOn : Option Nat := none
  deviceResponse : String := ""
  lastSentDataBlock : Option Nat := none
deriving DecidableEq

/-- The dedup filter of `add_command` (and of `_queue_get_user_info`):
same device, user, brand and command type, with status Pending. -/
def matchesPending (device user brand commandType : String) (c : Cmd) : Bool :=
  c.device == device && c.user == user && c.brand == brand &&
    c.commandType == commandType && c.status == CmdStatus.pending

def newCommand (device user brand commandType : String) : Cmd :=
  { device := device, user := user, brand := brand,
    commandType := commandType, status := CmdStatus.pending }

/-- Embedding of `add_command` (biometric_device_command.py lines
92-125): no-op when an equivalent Pending command exists, otherwise
insert one with status Pending. -/
def addCommand (db : List Cmd) (device user brand commandType : String) : List Cmd :=
  if db.any (matchesPending device user brand commandType) then db
  else db ++ [newCommand device user brand commandType]

def pendingCount (db : List Cmd) (device user brand commandType : String) : Nat :=
  (db.filter (matchesPending device user brand commandType)).length

/-- The setting `maximum_no_of_attempts_for_commands` as read by
`_handle_command_build_failure`: `cint(settings.get(...)) or 3`, so a
missing or zero setting falls back to 3. -/
def effectiveMaxAttempts (maxSetting : Nat) : Nat :=
  if maxSetting = 0 then 3 else maxSetting

/-- Embedding of `_handle_command_build_failure` (command_processor.py
lines 165-203): bump the attempt count, append a timestamped error line
to `device_response`, then either close the command as Failed (attempt
count at or above the configured maximum) or reset it to Pending for a
retry.  `ts` is the `now()` string used in the log line and `nowT` the
`now_datetime()` value recorded in `closed_on`. -/
def handleCommandBuildFailure (cmd : Cmd) (errMsg ts : String) (nowT : Nat)
    (maxSetting : Nat) : Cmd :=
  let attempts := cmd.noOfAttempts + 1
  let line := "[" ++ ts ++ "] Build Failed: " ++ errMsg
  let resp := if cmd.deviceResponse == "" then line
    else cmd.deviceResponse ++ "\n" ++ line
  if effectiveMaxAttempts maxSetting ≤ attempts then
    { cmd with
        noOfAttempts := attempts,
        deviceResponse := resp,
        status := CmdStatus.failed,
        closedOn := some nowT }
  else
    { cmd with
        noOfAttempts := attempts,
        deviceResponse := resp,
        status := CmdStatus.pending }

/-- Embedding of `BiometricDeviceCommand.before_save`
(biometric_device_command.py lines 49-89): rule 1 fails a command whose
attempt count reached `maximum_no_of_attempts_for_commands` (when that
setting is non-zero and the status is not Closed/Completed); rule 2
force-closes a command older than `force_close_after` days (when that
setting is non-zero, `initiated_on` is set, and the status is not
Closed/Success/Failed). -/
def beforeSave (cmd : Cmd) (maxSetting forceDays nowT : Nat) : Cmd :=
  let c1 :=
    if maxSetting ≠ 0 ∧ maxSetting ≤ cmd.noOfAttempts ∧
        cmd.status ≠ CmdStatus.closed ∧ cmd.status ≠ CmdStatus.completed then
      { cmd with status := CmdStatus.failed, closedOn := some nowT }
    else cmd
  match c1.initiatedOn with
  | none => c1
  | some t =>
    if forceDays ≠ 0 ∧ t + forceDays * 86400 ≤ nowT ∧
        c1.status ≠ CmdStatus.closed ∧ c1.status ≠ CmdStatus.success ∧
        c1.status ≠ CmdStatus.failed then
      { c1 with status := CmdStatus.failed, closedOn := some nowT }
    else c1

/-! Wire framing and replies (ebkn_processor.py lines 281-321 and 351-417) -/

/-- Little-endian `struct.pack("<I", n)`. -/
def le32 (n : Nat) : List Nat :=
  [n % 256, n / 256 % 256, n / 65536 % 256, n / 16777216 % 256]

/-- Embedding of `create_bs_comm_buffer`: 4-byte little-endian length
(payload length plus one for the trailing NUL), the payload, one NUL. -/
def createBsCommBuffer (payload : List Nat) : List Nat :=
  le32 (payload.length + 1) ++ payload ++ [0]

/-- Body of an outbound command as produced by the payload builders:
text (`str` in Python), pre-framed binary (`bytes`), or absent. -/
inductive CmdBody where
  | text : String → CmdBody
  | blob : List Nat → CmdBody
  | nobody : CmdBody
deriving DecidableEq

/-- UTF-8 encoding of one character (the code-point split used by
`str.encode("utf-8")`), written out so that it evaluates in the kernel. -/
def utf8Bytes (c : Char) : List Nat :=
  let n := c.toNat
  if n < 128 then [n]
  else if n < 2048 then [192 + n / 64, 128 + n % 64]
  else if n < 65536 then [224 + n / 4096, 128 + n / 64 % 64, 128 + n % 64]
  else [240 + n / 262144, 128 + n / 4096 % 64, 128 + n / 64 % 64, 128 + n % 64]

/-- Embedding of `s.encode("utf-8")` as a byte list. -/
def strToBytes (s : String) : List Nat :=
  (s.toList.map utf8Bytes).flatten

/-- Embedding of `_format_cmd_body`: `None` becomes empty, `bytes` are
sent unwrapped byte-for-byte, `str` is UTF-8 encoded and framed by
`create_bs_comm_buffer`. -/
def formatCmdBody : CmdBody → List Nat
  | CmdBody.nobody => []
  | CmdBody.blob bs => bs
  | CmdBody.text s => createBsCommBuffer (strToBytes s)

structure Reply where
  body : List Nat
  status : Nat
  headers : List (String × String)
deriving DecidableEq

/-- Embedding of `reply_response_code`: HTTP 200, headers
`response_code` and `trans_id`, then any extra headers, then `cmd_code`
when non-empty. -/
def replyResponseCode (responseCode transId cmdCode : String) (body : List Nat)
    (extra : List (String × String)) : Reply :=
  { body := body, status := 200,
    headers := [("response_code", responseCode), ("trans_id", transId)] ++ extra ++
      (if cmdCode = "" then [] else [("cmd_code", cmdCode)]) }

/-- Embedding of `_ok_after_block`. -/
def okAfterBlock : Reply := replyResponseCode "OK" "0" "" [] []

/-- Embedding of `_fail`: HTTP 400, header `response_code=ERROR`, body
the JSON error object. -/
def failReply (msg : String) : Reply :=
  { body := strToBytes ("\x7b\"error\": \"" ++ msg ++ "\"\x7d"),
    status := 400,
    headers := [("response_code", "ERROR")] }

/-- Embedding of `f"{int(user_id):0>8}"`: decimal digits left-padded with zeros to
width 8. -/
def zeroPad8 (n : Nat) : String :=
  let s := toString n
  if s.length < 8 then String.mk (List.replicate (8 - s.length) '0' ++ s.data) else s

/-- Embedding of `json.dumps` on the single-key user-id object. -/
def jsonUserIdBody (n : Nat) : String :=
  "\x7b\"user_id\": \"" ++ zeroPad8 n ++ "\"\x7d"

/-- Wire command handed from the builder to `_handle_receive_cmd`:
`trans_id` (the command document name), `cmd_code`, body, and an
optional block number for chunked transfers. -/
structure CmdPayload where
  transId : String
  cmdCode : String
  body : CmdBody
  blkNo : Option Nat := none
deriving DecidableEq

/-- Embedding of `_build_ebkn_payload` (command_processor.py lines
70-88): Delete User and Get Enroll Data carry a JSON text body with the
zero-padded user id; Enroll User ships the stored enrollment blob
verbatim and raises (`FileNotFoundError`, modelled as `Except.error`)
when no blob is on file; any other command type yields nothing. -/
def buildEbknPayload (cmdName : String) (commandType : String) (userId : Nat)
    (enrollBlob : Option (List Nat)) : Except String (Option CmdPayload) :=
  if commandType = "Delete User" then
    Except.ok (some
      { transId := cmdName, cmdCode := "DELETE_USER",
        body := CmdBody.text (jsonUserIdBody userId) })
  else if commandType = "Get Enroll Data" then
    Except.ok (some
      { transId := cmdName, cmdCode := "GET_USER_INFO",
        body := CmdBody.text (jsonUserIdBody userId) })
  else if commandType = "Enroll User" then
    match enrollBlob with
    | none => Except.error ("EBKN enrollment data not found")
    | some blob =>
      Except.ok (some
        { transId := cmdName, cmdCode := "SET_USER_INFO",
          body := CmdBody.blob blob })
  else Except.ok none

/-- Reply construction of `_handle_receive_cmd` (ebkn_processor.py lines
382-417) once the command (or its absence) is known: empty ACK when
there is nothing to send, otherwise the formatted body with the
command's `trans_id` and `cmd_code`, plus a `blk_no` header for chunked
transfers. -/
def handleReceiveCmdReply (transIdHdr : String) (cmd : Option CmdPayload) : Reply :=
  match cmd with
  | none => replyResponseCode "OK" transIdHdr "" [] []
  | some c =>
    let bodyBytes := formatCmdBody c.body
    let tid := if c.transId = "" then transIdHdr else c.transId
    let extra : List (String × String) :=
      match c.blkNo with
      | some b => if b = 0 then [] else [("blk_no", toString b)]
      | none => []
    replyResponseCode "OK" tid c.cmdCode bodyBytes extra

/-! Dispatcher boundary (ebkn_processor.py lines 192-271 and 424-503)

`handleRequestAux` is the body of the `try` block of `handle_request`:
reassembly, envelope extraction, placeholder inlining, routing.  Steps
that can raise a Python exception (the envelope scan, `json.loads`, a
handler body) are in the `Except` monad; the returned state is the
persisted store at the moment of return or raise.  `handleRequest` is
the whole function including the final `except` clause. -/

def HandlerFn : Type := Json → List Nat → Except String Reply

/-- Assignment `meta["device_id"] = dev_id` (line 261): raises when the parsed
envelope is not a JSON object; otherwise sets the key. -/
def jsonSetField (j : Json) (k : String) (v : Json) : Except String Json :=
  match j with
  | Json.obj kvs => Except.ok (Json.obj (aset kvs k v))
  | _ => Except.error ("envelope is not a JSON object")

def handleRequestAux (router : String → Option HandlerFn)
    (parse : List Nat → Except String Json) (st : ReasmState)
    (requestCode devId : String) (blkNo : Nat) (raw : List Nat) :
    ReasmState × Except String Reply :=
  if requestCode = "" ∨ devId = "" then
    (st, Except.ok (failReply "Missing request_code or dev_id"))
  else
    match handleBlock st devId requestCode blkNo raw with
    | (st1, BlockResult.cont) => (st1, Except.ok okAfterBlock)
    | (st1, BlockResult.error m) => (st1, Except.ok (failReply m))
    | (st1, BlockResult.complete full) =>
      match findEnvelope full with
      | Except.error e => (st1, Except.error e)
      | Except.ok (env, remaining) =>
        match parse env with
        | Except.error e => (st1, Except.error e)
        | Except.ok meta =>
          let meta1 := jsonWithInlinedBins meta (extractBins meta remaining)
          match jsonSetField meta1 "device_id" (Json.str devId) with
          | Except.error e => (st1, Except.error e)
          | Except.ok meta2 =>
            match router requestCode with
            | none => (st1, Except.ok (failReply "Unsupported request_code"))
            | some h => (st1, h meta2 full)

/-- Embedding of `handle_request` including its outermost
`try/except Exception` (lines 204-271): any exception raised inside the
body is converted into the 400 negative acknowledgement
`_fail("Internal server error")`. -/
def handleRequest (router : String → Option HandlerFn)
    (parse : List Nat → Except String Json) (st : ReasmState)
    (requestCode devId : String) (blkNo : Nat) (raw : List Nat) :
    ReasmState × Reply :=
  match handleRequestAux router parse st requestCode devId blkNo raw with
  | (st1, Except.ok r) => (st1, r)
  | (st1, Except.error _) => (st1, failReply "Internal server error")

inductive FetchOutcome where
  | found : Cmd → FetchOutcome
  | missing : FetchOutcome
  | raised : String → FetchOutcome

/-- Control flow of `_handle_send_cmd_result` (lines 424-503): a missing
command document is logged and acknowledged OK; a hard failure while
fetching propagates to the dispatcher catch; otherwise the document
update runs inside its own `try/except` whose outcome never changes the
final acknowledgement. -/
def handleSendCmdResultReply (fetch : FetchOutcome)
    (update : Cmd → Except String Cmd) (transId : String) : Except String Reply :=
  match fetch with
  | FetchOutcome.missing => Except.ok (replyResponseCode "OK" transId "" [] [])
  | FetchOutcome.raised e => Except.error e
  | FetchOutcome.found doc =>
    match update doc with
    | Except.ok _ => Except.ok (replyResponseCode "OK" transId "" [] [])
    | Except.error _ => Except.ok (replyResponseCode "OK" transId "" [] [])

/-! Helper lemmas. -/

theorem alookup_aset_self {α : Type} (l : List (String × α)) (k : String) (v : α) :
    alookup (aset l k v) k = some v := by
  induction l with
  | nil => simp [aset, alookup]
  | cons p t ih =>
    by_cases h : (p.1 == k) = true
    · simp [aset, alookup, h]
    · simp [aset, alookup, h, ih]

theorem alookup_aset_ne {α : Type} (l : List (String × α)) {k k' : String}
    (h : ¬ k = k') (v : α) : alookup (aset l k v) k' = alookup l k' := by
  induction l with
  | nil => simp [aset, alookup, beq_iff_eq, h]
  | cons p t ih =>
    by_cases hp : (p.1 == k) = true
    · have hpk : p.1 = k := eq_of_beq hp
      simp [aset, alookup, hp, hpk, beq_iff_eq, h]
    · simp [aset, alookup, hp, ih]

theorem alookup_aerase_self {α : Type} (l : List (String × α)) (k : String) :
    alookup (aerase l k) k = none := by
  induction l with
  | nil => simp [aerase, alookup]
  | cons p t ih =>
    by_cases h : (p.1 == k) = true
    · simp [aerase, alookup, h, ih]
    · simp [aerase, alookup, h, ih]

/-! Store facts about the reassembler state, all at the same session key. -/

theorem getLastBlock_setLastBlock (st : ReasmState) (dev req : String) (n : Nat) :
    getLastBlock (setLastBlock st dev req n) dev req = some n :=
  alookup_aset_self st.blockMap (seqKey dev req) n

theorem readSequence_setLastBlock (st : ReasmState) (dev req : String) (n : Nat) :
    readSequence (setLastBlock st dev req n) dev req = readSequence st dev req := rfl

theorem getLastBlock_appendBlock (st : ReasmState) (dev req : String) (d : List Nat) :
    getLastBlock (appendBlock st dev req d) dev req = getLastBlock st dev req := rfl

theorem readSequence_appendBlock (st : ReasmState) (dev req : String) (d : List Nat) :
    readSequence (appendBlock st dev req d) dev req
      = some ((readSequence st dev req).getD [] ++ d) :=
  alookup_aset_self st.spool (seqKey dev req) _

theorem getLastBlock_clearSequence (st : ReasmState) (dev req : String) :
    getLastBlock (clearSequence st dev req) dev req = none :=
  alookup_aerase_self st.blockMap (seqKey dev req)

theorem readSequence_clearSequence (st : ReasmState) (dev req : String) :
    readSequence (clearSequence st dev req) dev req = readSequence st dev req := rfl

theorem getLastBlock_startSequence (st : ReasmState) (dev req : String) :
    getLastBlock (startSequence st dev req) dev req = none :=
  alookup_aerase_self st.blockMap (seqKey dev req)

theorem readSequence_startSequence (st : ReasmState) (dev req : String) :
    readSequence (startSequence st dev req) dev req = none :=
  alookup_aerase_self st.spool (seqKey dev req)

/-! Branch lemmas for `handleBlock`. -/

theorem handleBlock_one (st : ReasmState) (dev req : String) (raw : List Nat) :
    handleBlock st dev req 1 raw
      = (setLastBlock (appendBlock (startSequence st dev req) dev req raw) dev req 1,
         BlockResult.cont) := rfl

theorem handleBlock_succ (st : ReasmState) (dev req : String) {n : Nat} (raw : List Nat)
    (hn : 1 ≤ n) (h : getLastBlock st dev req = some n) :
    handleBlock st dev req (n + 1) raw
      = (setLastBlock (appendBlock st dev req raw) dev req (n + 1), BlockResult.cont) := by
  simp only [handleBlock, h]
  rw [if_neg (by omega : ¬ (n + 1 = 1)), if_pos (by omega : 1 < n + 1)]
  simp

theorem handleBlock_zero_none (st : ReasmState) (dev req : String) (raw : List Nat)
    (h : getLastBlock st dev req = none) :
    handleBlock st dev req 0 raw = (st, BlockResult.complete raw) := by
  simp [handleBlock, h]

theorem handleBlock_zero_some (st : ReasmState) (dev req : String) (raw : List Nat)
    {lb : Nat} (h : getLastBlock st dev req = some lb) :
    handleBlock st dev req 0 raw
      = (clearSequence (setLastBlock (appendBlock st dev req raw) dev req 0) dev req,
         BlockResult.complete ((readSequence st dev req).getD [] ++ raw)) := by
  have hread : readSequence (setLastBlock (appendBlock st dev req raw) dev req 0) dev req
      = some ((readSequence st dev req).getD [] ++ raw) := by
    rw [readSequence_setLastBlock, readSequence_appendBlock]
  simp [handleBlock, h, hread]

theorem handleBlock_mismatch (st : ReasmState) (dev req : String) (blk : Nat)
    (raw : List Nat) (hblk : 1 < blk)
    (h : ∀ lb, getLastBlock st dev req = some lb → blk ≠ lb + 1) :
    handleBlock st dev req blk raw = (st, BlockResult.error "Block sequence mismatch") := by
  simp only [handleBlock]
  rw [if_neg (by omega : ¬ (blk = 1)), if_pos hblk]
  cases hl : getLastBlock st dev req with
  | none => rfl
  | some lb => simp [h lb hl]

/-- State invariant while a session is open: submitting chunks with the
next expected block numbers keeps extending the recorded last block and
the spooled buffer. -/
theorem submitFrom_inv (dev req : String) (cs : List (List Nat)) :
    ∀ (st : ReasmState) (n : Nat) (buf : List Nat), 1 ≤ n →
      getLastBlock st dev req = some n → readSequence st dev req = some buf →
      getLastBlock (submitFrom dev req st (n + 1) cs) dev req = some (n + cs.length) ∧
      readSequence (submitFrom dev req st (n + 1) cs) dev req = some (buf ++ cs.flatten) := by
  induction cs with
  | nil =>
    intro st n buf _ hlast hread
    simp [submitFrom, hlast, hread]
  | cons c cs ih =>
    intro st n buf hn hlast hread
    have hb := handleBlock_succ st dev req c hn hlast
    have hstep : submitFrom dev req st (n + 1) (c :: cs)
        = submitFrom dev req (setLastBlock (appendBlock st dev req c) dev req (n + 1))
            (n + 2) cs := by
      simp [submitFrom, hb]
    set st2 := setLastBlock (appendBlock st dev req c) dev req (n + 1) with hst2
    have hlast2 : getLastBlock st2 dev req = some (n + 1) :=
      getLastBlock_setLastBlock _ dev req _
    have hread2 : readSequence st2 dev req = some (buf ++ c) := by
      rw [hst2, readSequence_setLastBlock, readSequence_appendBlock, hread]
      rfl
    obtain ⟨hL, hR⟩ := ih st2 (n + 1) (buf ++ c) (by omega) hlast2 hread2
    constructor
    · rw [hstep, hL]
      norm_num
      omega
    · rw [hstep, hR]
      simp

/-- C1: a block sequence 1, 2, ..., N, 0 submitted in order reassembles
to the exact concatenation of the chunks in submission order, and a
block 0 with no open session completes with that single chunk alone. -/
theorem c1_reassembler_complete_concat (dev req : String) (st : ReasmState)
    (c1 : List Nat) (cs : List (List Nat)) (c0 : List Nat) :
    (handleBlock (submitFrom dev req (handleBlock st dev req 1 c1).1 2 cs) dev req 0 c0).2
        = BlockResult.complete (c1 ++ cs.flatten ++ c0)
    ∧ (getLastBlock st dev req = none →
        handleBlock st dev req 0 c0 = (st, BlockResult.complete c0)) := by
  constructor
  · rw [handleBlock_one]
    set st1 := setLastBlock (appendBlock (startSequence st dev req) dev req c1) dev req 1
      with hst1
    have hlast1 : getLastBlock st1 dev req = some 1 := getLastBlock_setLastBlock _ dev req 1
    have hread1 : readSequence st1 dev req = some c1 := by
      rw [hst1, readSequence_setLastBlock, readSequence_appendBlock,
        readSequence_startSequence]
      rfl
    obtain ⟨hL, hR⟩ := submitFrom_inv dev req cs st1 1 c1 (le_refl 1) hlast1 hread1
    rw [handleBlock_zero_some _ dev req c0 hL, hR]
    simp [List.append_assoc]
  · intro h
    exact handleBlock_zero_none st dev req c0 h

/-- Witness for C1 at a concrete three-block-plus-terminator run and a
concrete single-shot block 0. -/
theorem c1_witness :
    (handleBlock (submitFrom "d" "r" (handleBlock ⟨[], []⟩ "d" "r" 1 [1]).1 2 [[2], [3]]) "d" "r" 0 [4]).2
        = BlockResult.complete ([1] ++ [[2], [3]].flatten ++ [4])
    ∧ handleBlock ⟨[], []⟩ "d" "r" 0 [4] = (⟨[], []⟩, BlockResult.complete [4]) :=
  ⟨(c1_reassembler_complete_concat "d" "r" ⟨[], []⟩ [1] [[2], [3]] [4]).1,
   (c1_reassembler_complete_concat "d" "r" ⟨[], []⟩ [1] [[2], [3]] [4]).2 rfl⟩

/-- C6: a block number above 1 that does not extend the recorded
sequence by exactly one (including when no session is open) is rejected
with the error reply "Block sequence mismatch" and the state — block map
and spool alike — is returned unchanged. -/
theorem c6_mismatch_rejected_state_unchanged (st : ReasmState) (dev req : String)
    (blk : Nat) (raw : List Nat) (hblk : 1 < blk)
    (h : ∀ lb, getLastBlock st dev req = some lb → blk ≠ lb + 1) :
    handleBlock st dev req blk raw = (st, BlockResult.error "Block sequence mismatch") :=
  handleBlock_mismatch st dev req blk raw hblk h

/-- Witness for C6: block 3 while the last accepted block is 1, and
block 2 with no open session. -/
theorem c6_witness :
    handleBlock ⟨[("d_r", 1)], [("d_r", [9])]⟩ "d" "r" 3 [7]
        = (⟨[("d_r", 1)], [("d_r", [9])]⟩, BlockResult.error "Block sequence mismatch")
    ∧ handleBlock ⟨[], []⟩ "d" "r" 2 [7]
        = (⟨[], []⟩, BlockResult.error "Block sequence mismatch") := by
  constructor
  · exact c6_mismatch_rejected_state_unchanged _ "d" "r" 3 [7] (by decide)
      (fun lb hl => by
        have : lb = 1 := by
          have h1 : getLastBlock (⟨[("d_r", 1)], [("d_r", [9])]⟩ : ReasmState) "d" "r"
              = some 1 := rfl
          rw [h1] at hl
          exact (Option.some_injective Nat hl).symm
        omega)
  · exact c6_mismatch_rejected_state_unchanged _ "d" "r" 2 [7] (by decide)
      (fun lb hl => by
        have h1 : getLastBlock (⟨[], []⟩ : ReasmState) "d" "r" = none := rfl
        rw [h1] at hl
        exact Option.noConfusion hl)

/-- C7 as written is false on the code: after a successful completion
the spool file is NOT deleted — only the block-sequence record is
cleared (`_clear_sequence` pops the map key; no `os.remove` runs on the
completion path).  Concretely: submit block 1 then block 0; the
reassembly completes, yet the spooled buffer for the key still holds the
full payload afterwards. -/
theorem c7_counterexample :
    (handleBlock (handleBlock ⟨[], []⟩ "d" "r" 1 [1]).1 "d" "r" 0 [2]).2
        = BlockResult.complete [1, 2]
    ∧ readSequence (handleBlock (handleBlock ⟨[], []⟩ "d" "r" 1 [1]).1 "d" "r" 0 [2]).1 "d" "r"
        = some [1, 2] := by decide

/-- C7 amended: on successful completion only the block-sequence record
is cleared; the accumulated buffer survives (holding the completed
payload) until the next block 1, which wipes both the prior buffer and
the sequence record and restarts the session from its own chunk. -/
theorem c7_amended_teardown (st : ReasmState) (dev req : String) (raw : List Nat)
    {lb : Nat} (h : getLastBlock st dev req = some lb) :
    (getLastBlock (handleBlock st dev req 0 raw).1 dev req = none
      ∧ readSequence (handleBlock st dev req 0 raw).1 dev req
          = some ((readSequence st dev req).getD [] ++ raw)
      ∧ (handleBlock st dev req 0 raw).2
          = BlockResult.complete ((readSequence st dev req).getD [] ++ raw))
    ∧ (getLastBlock (handleBlock st dev req 1 raw).1 dev req = some 1
      ∧ readSequence (handleBlock st dev req 1 raw).1 dev req = some raw) := by
  constructor
  · rw [handleBlock_zero_some st dev req raw h]
    refine ⟨getLastBlock_clearSequence _ dev req, ?_, rfl⟩
    rw [readSequence_clearSequence, readSequence_setLastBlock, readSequence_appendBlock]
  · rw [handleBlock_one]
    refine ⟨getLastBlock_setLastBlock _ dev req 1, ?_⟩
    rw [readSequence_setLastBlock, readSequence_appendBlock, readSequence_startSequence]
    rfl

/-- Witness for the amended C7. -/
theorem c7_amended_witness :
    (getLastBlock (handleBlock ⟨[("d_r", 1)], [("d_r", [5])]⟩ "d" "r" 0 [6]).1 "d" "r" = none
      ∧ readSequence (handleBlock ⟨[("d_r", 1)], [("d_r", [5])]⟩ "d" "r" 0 [6]).1 "d" "r"
          = some ((readSequence ⟨[("d_r", 1)], [("d_r", [5])]⟩ "d" "r").getD [] ++ [6])
      ∧ (handleBlock ⟨[("d_r", 1)], [("d_r", [5])]⟩ "d" "r" 0 [6]).2
          = BlockResult.complete ((readSequence ⟨[("d_r", 1)], [("d_r", [5])]⟩ "d" "r").getD [] ++ [6]))
    ∧ (getLastBlock (handleBlock ⟨[("d_r", 1)], [("d_r", [5])]⟩ "d" "r" 1 [6]).1 "d" "r" = some 1
      ∧ readSequence (handleBlock ⟨[("d_r", 1)], [("d_r", [5])]⟩ "d" "r" 1 [6]).1 "d" "r" = some [6]) :=
  c7_amended_teardown ⟨[("d_r", 1)], [("d_r", [5])]⟩ "d" "r" [6] (rfl : _ = some 1)

/-! Codec lemmas. -/

/-- Shape of the even split: with `n` placeholders and `n * q ≤ len`,
the read loop produces `n - 1` segments of exactly `q` bytes, a final
segment holding everything left, and the segments concatenate back to
the whole input. -/
theorem splitStream_spec :
    ∀ (phs : List String) (q : Nat) (rest : List Nat), phs ≠ [] →
      phs.length * q ≤ rest.length →
      ((splitStream q phs rest).map (fun p => p.2.length)
          = List.replicate (phs.length - 1) q ++ [rest.length - (phs.length - 1) * q])
      ∧ ((splitStream q phs rest).map (fun p => p.2)).flatten = rest := by
  intro phs
  induction phs with
  | nil => intro q rest h; exact absurd rfl h
  | cons ph phs ih =>
    intro q rest _ hle
    cases phs with
    | nil => simp [splitStream]
    | cons ph2 phs2 =>
      have hq : q ≤ rest.length := by
        refine le_trans ?_ hle
        have : 0 < (ph :: ph2 :: phs2).length := by simp
        exact Nat.le_mul_of_pos_left q this
      have hlen : (ph :: ph2 :: phs2).length * q
          = (ph2 :: phs2).length * q + q := by
        simp [List.length_cons, Nat.succ_mul]
      have hle2 : (ph2 :: phs2).length * q ≤ (rest.drop q).length := by
        rw [List.length_drop]
        exact Nat.le_sub_of_add_le (by omega)
      obtain ⟨ihL, ihF⟩ := ih q (rest.drop q) (by simp) hle2
      constructor
      · have htake : (rest.take q).length = q := by
          rw [List.length_take]
          omega
        have hX : rest.length - q - ((ph2 :: phs2).length - 1) * q
            = rest.length - (((ph2 :: phs2).length - 1) + 1) * q := by
          rw [Nat.sub_sub, Nat.succ_mul, Nat.add_comm]
        have hrep : (ph :: ph2 :: phs2).length - 1 = ((ph2 :: phs2).length - 1) + 1 := by
          simp
        simp only [splitStream, List.map_cons, ihL, htake, List.length_drop, hX]
        rw [hrep, List.replicate_succ]
        simp
      · simp only [splitStream, List.map_cons, List.flatten_cons, ihF]
        exact List.take_append_drop q rest

/-- The keys of the split are the placeholder occurrences, in order. -/
theorem splitStream_keys :
    ∀ (phs : List String) (q : Nat) (rest : List Nat),
      (splitStream q phs rest).map (fun p => p.1) = phs := by
  intro phs
  induction phs with
  | nil => intro q rest; rfl
  | cons ph phs ih =>
    intro q rest
    cases phs with
    | nil => rfl
    | cons ph2 phs2 => simp [splitStream, ih]

theorem lastAssoc_cons {α : Type} (p : String × α) (t : List (String × α)) (k : String) :
    lastAssoc (p :: t) k
      = (lastAssoc t k).or (if (p.1 == k) = true then some p.2 else none) := by
  unfold lastAssoc
  rw [List.reverse_cons, List.find?_append]
  cases h : List.find? (fun q => q.1 == k) t.reverse with
  | some x => simp [h]
  | none => by_cases hp : (p.1 == k) = true <;> simp [h, List.find?, hp]

/-- Looking a key up in the dict that the assignment loop builds finds
the value assigned at the key's last occurrence. -/
theorem alookup_foldl_aset {α : Type} (l : List (String × α)) :
    ∀ (acc : List (String × α)) (k : String),
      alookup (l.foldl (fun d p => aset d p.1 p.2) acc) k
        = (lastAssoc l k).or (alookup acc k) := by
  induction l with
  | nil => intro acc k; simp [lastAssoc]
  | cons p t ih =>
    intro acc k
    rw [List.foldl_cons, ih (aset acc p.1 p.2) k, lastAssoc_cons, Option.or_assoc]
    have hstep : alookup (aset acc p.1 p.2) k
        = (if (p.1 == k) = true then some p.2 else none).or (alookup acc k) := by
      by_cases hk : (p.1 == k) = true
      · rw [if_pos hk]
        have hpk := eq_of_beq hk
        rw [← hpk]
        simp [alookup_aset_self]
      · rw [if_neg hk]
        have hne : ¬ p.1 = k := fun he => hk (by rw [he]; exact beq_self_eq_true k)
        simp [alookup_aset_ne acc hne p.2]
    rw [hstep]

theorem buildDict_lookup {α : Type} (l : List (String × α)) (k : String) :
    alookup (buildDict l) k = lastAssoc l k := by
  have h := alookup_foldl_aset l [] k
  simpa [buildDict, alookup] using h

theorem aset_append {α : Type} (acc : List (String × α)) (k : String) (v : α)
    (h : ∀ q ∈ acc, ¬ q.1 = k) : aset acc k v = acc ++ [(k, v)] := by
  induction acc with
  | nil => rfl
  | cons q t ih =>
    have hq : ¬ (q.1 == k) = true := by
      intro hb
      exact h q (List.mem_cons_self q t) (eq_of_beq hb)
    simp only [aset, if_neg hq, List.cons_append, List.cons.injEq, true_and]
    exact ih (fun r hr => h r (List.mem_cons_of_mem q hr))

theorem foldl_aset_nodup {α : Type} (l : List (String × α)) :
    ∀ acc : List (String × α), ((acc ++ l).map (fun p => p.1)).Nodup →
      l.foldl (fun d p => aset d p.1 p.2) acc = acc ++ l := by
  induction l with
  | nil => intro acc _; simp
  | cons p t ih =>
    intro acc h
    have hdisj : (acc.map (fun r => r.1)).Disjoint ((p :: t).map (fun r => r.1)) := by
      have hh := h
      rw [List.map_append] at hh
      exact (List.nodup_append.mp hh).2.2
    have hmem : ∀ q ∈ acc, ¬ q.1 = p.1 := by
      intro q hq he
      exact hdisj (List.mem_map_of_mem _ hq)
        (by rw [he]; exact List.mem_map_of_mem _ (List.mem_cons_self p t))
    rw [List.foldl_cons, aset_append acc p.1 p.2 hmem, Prod.mk.eta]
    have hre : acc ++ [p] ++ t = acc ++ p :: t := by simp
    rw [ih (acc ++ [p]) (by rw [hre]; exact h), hre]

theorem buildDict_of_nodupKeys {α : Type} (l : List (String × α))
    (h : (l.map (fun p => p.1)).Nodup) : buildDict l = l := by
  have hh := foldl_aset_nodup l [] (by simpa using h)
  simpa [buildDict] using hh

mutual

/-- Lemma: `_json_with_inlined_bins` acts on every string node through the one
replacement function `inlineStr`, so all occurrences of the same token
are replaced identically. -/
theorem jsonWithInlinedBins_eq_jmapStr (m : List (String × List Nat)) :
    (j : Json) → jsonWithInlinedBins j m = jmapStr (inlineStr m) j
  | Json.obj kvs => congrArg Json.obj (inlineFields_eq_jmapStrFields m kvs)
  | Json.arr xs => congrArg Json.arr (inlineItems_eq_jmapStrItems m xs)
  | Json.str s => by
    cases h : alookup m s <;> simp [jsonWithInlinedBins, jmapStr, inlineStr, h]
  | Json.num _ => rfl
  | Json.bool _ => rfl
  | Json.null => rfl
termination_by structural j => j

theorem inlineFields_eq_jmapStrFields (m : List (String × List Nat)) :
    (kvs : List (String × Json)) → inlineFields kvs m = jmapStrFields (inlineStr m) kvs
  | [] => rfl
  | (k, v) :: rest => by
    rw [inlineFields, jmapStrFields, jsonWithInlinedBins_eq_jmapStr m v,
      inlineFields_eq_jmapStrFields m rest]
termination_by structural l => l

theorem inlineItems_eq_jmapStrItems (m : List (String × List Nat)) :
    (xs : List Json) → inlineItems xs m = jmapStrItems (inlineStr m) xs
  | [] => rfl
  | x :: rest => by
    rw [inlineItems, jmapStrItems, jsonWithInlinedBins_eq_jmapStr m x,
      inlineItems_eq_jmapStrItems m rest]
termination_by structural l => l

end

/-- C2: with N placeholders found by the depth-first walk, the trailing
bytes split into N segments — the first N-1 of exactly
`len / N` bytes each and the last absorbing the remainder, together
covering the input — and with zero placeholders the decoder returns the
bare envelope with no segments (and in particular does not raise). -/
theorem c2_even_split (meta : Json) (remaining : List Nat) :
    (collectPlaceholders meta ≠ [] →
      ((segmentsOf (collectPlaceholders meta) remaining).map (fun p => p.2.length)
          = List.replicate ((collectPlaceholders meta).length - 1)
              (remaining.length / (collectPlaceholders meta).length)
            ++ [remaining.length - ((collectPlaceholders meta).length - 1)
                * (remaining.length / (collectPlaceholders meta).length)])
      ∧ ((segmentsOf (collectPlaceholders meta) remaining).map (fun p => p.2)).flatten
          = remaining)
    ∧ (collectPlaceholders meta = [] →
        extractJsonAndBins meta remaining = (meta, [])) := by
  constructor
  · intro h
    refine splitStream_spec (collectPlaceholders meta) _ remaining h ?_
    rw [Nat.mul_comm]
    exact Nat.div_mul_le_self remaining.length (collectPlaceholders meta).length
  · intro h
    simp [extractJsonAndBins, extractBins, h]

/-- Witness for C2: three distinct placeholders against 11 trailing
bytes give segments of sizes 3, 3, 5 that concatenate to the input. -/
theorem c2_witness :
    ((segmentsOf (collectPlaceholders (Json.obj [("a", Json.str "BIN_1"),
          ("b", Json.arr [Json.str "BIN_2"]), ("c", Json.str "BIN_3")]))
        (List.range 11)).map (fun p => p.2.length) = [3, 3, 5])
    ∧ ((segmentsOf (collectPlaceholders (Json.obj [("a", Json.str "BIN_1"),
          ("b", Json.arr [Json.str "BIN_2"]), ("c", Json.str "BIN_3")]))
        (List.range 11)).map (fun p => p.2)).flatten = List.range 11 := by
  have h := (c2_even_split (Json.obj [("a", Json.str "BIN_1"),
    ("b", Json.arr [Json.str "BIN_2"]), ("c", Json.str "BIN_3")]) (List.range 11)).1
    (by decide)
  refine ⟨?_, h.2⟩
  rw [h.1]
  decide

/-- C10: the split is computed over the total occurrence count of
placeholder tokens; the dict maps every token to the segment of its last
occurrence (earlier assignments overwritten); re-inlining rewrites every
string node through the single function `inlineStr m`, so duplicated
tokens are replaced by the same bytes; and when the tokens are pairwise
distinct the dict is exactly the in-order one-to-one split. -/
theorem c10_duplicate_placeholder_semantics (meta : Json) (remaining : List Nat) :
    (collectPlaceholders meta ≠ [] →
      (segmentsOf (collectPlaceholders meta) remaining).length
          = (collectPlaceholders meta).length
      ∧ extractBins meta remaining
          = buildDict (segmentsOf (collectPlaceholders meta) remaining))
    ∧ (∀ ph, alookup (buildDict (segmentsOf (collectPlaceholders meta) remaining)) ph
        = lastAssoc (segmentsOf (collectPlaceholders meta) remaining) ph)
    ∧ ((collectPlaceholders meta).Nodup →
        extractBins meta remaining = segmentsOf (collectPlaceholders meta) remaining)
    ∧ (∀ m, jsonWithInlinedBins meta m = jmapStr (inlineStr m) meta)
    ∧ (∀ m s bs, alookup m s = some bs → inlineStr m s = b64encode bs) := by
  refine ⟨?_, ?_, ?_, ?_, ?_⟩
  · intro h
    constructor
    · have hk := splitStream_keys (collectPlaceholders meta)
        (remaining.length / (collectPlaceholders meta).length) remaining
      have := congrArg List.length hk
      simpa [segmentsOf, List.length_map] using this
    · simp [extractBins, h]
  · intro ph
    exact buildDict_lookup _ ph
  · intro hnd
    by_cases h : collectPlaceholders meta = []
    · simp [extractBins, h, segmentsOf, splitStream]
    · simp only [extractBins, if_neg h]
      refine buildDict_of_nodupKeys _ ?_
      rw [segmentsOf, splitStream_keys]
      exact hnd
  · intro m
    exact jsonWithInlinedBins_eq_jmapStr m meta
  · intro m s bs h
    simp [inlineStr, h]

/-- Witness for C10: a duplicated token "BIN_1" over 4 trailing bytes —
the split still has two segments, lookup returns the last occurrence's
segment [3, 4], and on a distinct-token envelope the dict equals the
in-order split. -/
theorem c10_witness :
    alookup (extractBins (Json.arr [Json.str "BIN_1", Json.str "BIN_1"]) [1, 2, 3, 4]) "BIN_1"
        = some [3, 4]
    ∧ (segmentsOf (collectPlaceholders (Json.arr [Json.str "BIN_1", Json.str "BIN_1"]))
        [1, 2, 3, 4]).length = 2
    ∧ extractBins (Json.arr [Json.str "BIN_1", Json.str "BIN_2"]) [1, 2, 3, 4]
        = segmentsOf (collectPlaceholders (Json.arr [Json.str "BIN_1", Json.str "BIN_2"]))
            [1, 2, 3, 4] := by
  have h := c10_duplicate_placeholder_semantics (Json.arr [Json.str "BIN_1", Json.str "BIN_1"])
    [1, 2, 3, 4]
  have h2 := c10_duplicate_placeholder_semantics (Json.arr [Json.str "BIN_1", Json.str "BIN_2"])
    [1, 2, 3, 4]
  refine ⟨?_, ?_, h2.2.2.1 (by decide)⟩
  · rw [(h.1 (by decide)).2, h.2.1 "BIN_1"]
    decide
  · rw [(h.1 (by decide)).1]
    decide

/-! Command-queue lemmas. -/

theorem pendingCount_zero_iff (db : List Cmd) (device user brand commandType : String) :
    pendingCount db device user brand commandType = 0
      ↔ db.any (matchesPending device user brand commandType) = false := by
  simp [pendingCount, List.length_eq_zero, List.filter_eq_nil_iff, List.any_eq_false]

theorem matchesPending_newCommand (device user brand commandType : String) :
    matchesPending device user brand commandType
      (newCommand device user brand commandType) = true := by
  simp [matchesPending, newCommand]
  rfl

theorem pendingCount_append_new (db : List Cmd) (device user brand commandType : String)
    (h : db.any (matchesPending device user brand commandType) = false) :
    pendingCount (db ++ [newCommand device user brand commandType])
      device user brand commandType = 1 := by
  rw [List.any_eq_false] at h
  have hfil : db.filter (matchesPending device user brand commandType) = [] :=
    List.filter_eq_nil_iff.mpr h
  rw [pendingCount, List.filter_append, hfil]
  simp [matchesPending_newCommand]

/-- C3: enqueueing is a no-op whenever an equivalent Pending command
already exists; two immediate enqueues against a store with no matching
Pending command create exactly one; and the at-most-one-Pending
invariant for the (device, user, brand, kind) tuple is preserved by
enqueue. -/
theorem c3_enqueue_dedup (db : List Cmd) (device user brand commandType : String) :
    (pendingCount db device user brand commandType = 0 →
      pendingCount (addCommand (addCommand db device user brand commandType)
          device user brand commandType) device user brand commandType = 1)
    ∧ (1 ≤ pendingCount db device user brand commandType →
      addCommand db device user brand commandType = db)
    ∧ (pendingCount db device user brand commandType ≤ 1 →
      pendingCount (addCommand db device user brand commandType)
          device user brand commandType ≤ 1) := by
  refine ⟨?_, ?_, ?_⟩
  · intro h0
    have hany := (pendingCount_zero_iff db device user brand commandType).mp h0
    have hstep1 : addCommand db device user brand commandType
        = db ++ [newCommand device user brand commandType] := by
      rw [addCommand, if_neg (by simp [hany])]
    rw [hstep1]
    have hany2 : (db ++ [newCommand device user brand commandType]).any
        (matchesPending device user brand commandType) = true := by
      rw [List.any_append]
      simp [matchesPending_newCommand]
    rw [addCommand, if_pos hany2]
    exact pendingCount_append_new db device user brand commandType hany
  · intro h1
    by_cases hany : db.any (matchesPending device user brand commandType) = true
    · rw [addCommand, if_pos hany]
    · have h0 := (pendingCount_zero_iff db device user brand commandType).mpr
        (by simpa using hany)
      omega
  · intro hle
    by_cases hany : db.any (matchesPending device user brand commandType) = true
    · rw [addCommand, if_pos hany]
      exact hle
    · have hany' : db.any (matchesPending device user brand commandType) = false := by
        simpa using hany
      have hstep1 : addCommand db device user brand commandType
          = db ++ [newCommand device user brand commandType] := by
        rw [addCommand, if_neg (by simp [hany'])]
      rw [hstep1, pendingCount_append_new db device user brand commandType hany']

/-- Witness for C3: two immediate enqueues against an empty store. -/
theorem c3_witness :
    pendingCount (addCommand (addCommand [] "DEV1" "U1" "EBKN" "Enroll User")
        "DEV1" "U1" "EBKN" "Enroll User") "DEV1" "U1" "EBKN" "Enroll User" = 1 :=
  (c3_enqueue_dedup [] "DEV1" "U1" "EBKN" "Enroll User").1 rfl

/-- C4: recording a build failure always bumps the attempt count and
appends the timestamped error line; when the bumped count reaches the
configured maximum the command becomes Failed with a non-null closed
time, and with any lower count it is left Pending for retry. -/
theorem c4_attempt_failure (cmd : Cmd) (errMsg ts : String) (nowT maxSetting : Nat) :
    (handleCommandBuildFailure cmd errMsg ts nowT maxSetting).noOfAttempts
        = cmd.noOfAttempts + 1
    ∧ (handleCommandBuildFailure cmd errMsg ts nowT maxSetting).deviceResponse
        = (if cmd.deviceResponse == "" then "[" ++ ts ++ "] Build Failed: " ++ errMsg
           else cmd.deviceResponse ++ "\n" ++ ("[" ++ ts ++ "] Build Failed: " ++ errMsg))
    ∧ (cmd.noOfAttempts + 1 = effectiveMaxAttempts maxSetting →
        (handleCommandBuildFailure cmd errMsg ts nowT maxSetting).status = CmdStatus.failed
        ∧ (handleCommandBuildFailure cmd errMsg ts nowT maxSetting).closedOn = some nowT)
    ∧ (cmd.noOfAttempts + 1 < effectiveMaxAttempts maxSetting →
        (handleCommandBuildFailure cmd errMsg ts nowT maxSetting).status
          = CmdStatus.pending) := by
  by_cases h : effectiveMaxAttempts maxSetting ≤ cmd.noOfAttempts + 1
  · refine ⟨?_, ?_, ?_, ?_⟩ <;> simp [handleCommandBuildFailure, h]
  · refine ⟨?_, ?_, ?_, ?_⟩ <;> simp [handleCommandBuildFailure, h]
    omega

/-- Witness for C4: attempt count 2 with configured maximum 3 fails and
closes; attempt count 0 stays Pending. -/
theorem c4_witness :
    ((handleCommandBuildFailure { newCommand "D" "U" "EBKN" "Enroll User" with noOfAttempts := 2 }
        "boom" "t0" 55 3).status = CmdStatus.failed
      ∧ (handleCommandBuildFailure { newCommand "D" "U" "EBKN" "Enroll User" with noOfAttempts := 2 }
        "boom" "t0" 55 3).closedOn = some 55)
    ∧ (handleCommandBuildFailure (newCommand "D" "U" "EBKN" "Enroll User")
        "boom" "t0" 55 3).status = CmdStatus.pending :=
  ⟨(c4_attempt_failure { newCommand "D" "U" "EBKN" "Enroll User" with noOfAttempts := 2 }
      "boom" "t0" 55 3).2.2.1 (by decide),
   (c4_attempt_failure (newCommand "D" "U" "EBKN" "Enroll User")
      "boom" "t0" 55 3).2.2.2 (by decide)⟩

/-- C5: a Pending command whose creation time plus the configured
force-close window (in days) is at or before the current time is swept
to Failed with a recorded closed time by `before_save`, regardless of
its attempt count. -/
theorem c5_age_force_close (cmd : Cmd) (maxSetting forceDays nowT T : Nat)
    (hp : cmd.status = CmdStatus.pending) (hi : cmd.initiatedOn = some T)
    (hd : forceDays ≠ 0) (ht : T + forceDays * 86400 ≤ nowT) :
    (beforeSave cmd maxSetting forceDays nowT).status = CmdStatus.failed
    ∧ (beforeSave cmd maxSetting forceDays nowT).closedOn = some nowT := by
  unfold beforeSave
  by_cases h1 : maxSetting ≠ 0 ∧ maxSetting ≤ cmd.noOfAttempts ∧
      cmd.status ≠ CmdStatus.closed ∧ cmd.status ≠ CmdStatus.completed
  · rw [if_pos h1]
    simp [hi]
  · rw [if_neg h1]
    simp [hi, hp, hd, ht]

/-- Witness for C5: Pending command created at time 100, window 3 days,
attempt count 0, swept exactly at the window boundary. -/
theorem c5_witness :
    (beforeSave { newCommand "D" "U" "EBKN" "Enroll User" with initiatedOn := some 100 }
        5 3 (100 + 3 * 86400)).status = CmdStatus.failed
    ∧ (beforeSave { newCommand "D" "U" "EBKN" "Enroll User" with initiatedOn := some 100 }
        5 3 (100 + 3 * 86400)).closedOn = some (100 + 3 * 86400) :=
  c5_age_force_close { newCommand "D" "U" "EBKN" "Enroll User" with initiatedOn := some 100 }
    5 3 (100 + 3 * 86400) 100 rfl rfl (by decide) (by omega)

/-- C8: a text body goes on the wire as a 4-byte little-endian length
(text byte length plus one) followed by the text bytes and exactly one
NUL; an already-binary body is sent byte-for-byte with no framing; and
an EnrollUser command with a stored template is built with cmd_code
SET_USER_INFO and answered with a 200 reply whose body is exactly the
raw template bytes. -/
theorem c8_wire_framing (s : String) (bs : List Nat) (hdrTid cmdName : String)
    (userId : Nat) (blob : List Nat) :
    formatCmdBody (CmdBody.text s)
        = le32 ((strToBytes s).length + 1) ++ strToBytes s ++ [0]
    ∧ formatCmdBody (CmdBody.blob bs) = bs
    ∧ buildEbknPayload cmdName "Enroll User" userId (some blob)
        = Except.ok (some
            { transId := cmdName, cmdCode := "SET_USER_INFO", body := CmdBody.blob blob })
    ∧ (handleReceiveCmdReply hdrTid (some
          { transId := cmdName, cmdCode := "SET_USER_INFO", body := CmdBody.blob blob })).body
        = blob
    ∧ (handleReceiveCmdReply hdrTid (some
          { transId := cmdName, cmdCode := "SET_USER_INFO", body := CmdBody.blob blob })).status
        = 200
    ∧ alookup (handleReceiveCmdReply hdrTid (some
          { transId := cmdName, cmdCode := "SET_USER_INFO", body := CmdBody.blob blob })).headers
        "cmd_code" = some "SET_USER_INFO" := by
  refine ⟨rfl, rfl, rfl, rfl, rfl, ?_⟩
  simp [handleReceiveCmdReply, replyResponseCode, alookup]

/-- C9: the top-level handler converts every exception raised in its
body into the 400 `response_code=ERROR` reply "Internal server error"
and otherwise forwards the body's reply unchanged, so no exception ever
escapes to the dispatcher; and the command-result handler acknowledges
the device with a positive reply regardless of whether its own document
update succeeded or failed. -/
theorem c9_exception_boundary (router : String → Option HandlerFn)
    (parse : List Nat → Except String Json) (st : ReasmState)
    (requestCode devId : String) (blkNo : Nat) (raw : List Nat)
    (fetch : FetchOutcome) (update : Cmd → Except String Cmd) (transId : String) :
    (∀ e, (handleRequestAux router parse st requestCode devId blkNo raw).2 = Except.error e →
      handleRequest router parse st requestCode devId blkNo raw
        = ((handleRequestAux router parse st requestCode devId blkNo raw).1,
           failReply "Internal server error"))
    ∧ (∀ rep, (handleRequestAux router parse st requestCode devId blkNo raw).2 = Except.ok rep →
      handleRequest router parse st requestCode devId blkNo raw
        = ((handleRequestAux router parse st requestCode devId blkNo raw).1, rep))
    ∧ (failReply "Internal server error").status = 400
    ∧ alookup (failReply "Internal server error").headers "response_code" = some "ERROR"
    ∧ (∀ doc, fetch = FetchOutcome.found doc →
      handleSendCmdResultReply fetch update transId
        = Except.ok (replyResponseCode "OK" transId "" [] []))
    ∧ (fetch = FetchOutcome.missing →
      handleSendCmdResultReply fetch update transId
        = Except.ok (replyResponseCode "OK" transId "" [] [])) := by
  refine ⟨?_, ?_, rfl, rfl, ?_, ?_⟩
  · intro e he
    unfold handleRequest
    rcases haux : handleRequestAux router parse st requestCode devId blkNo raw with ⟨st1, r⟩
    rw [haux] at he
    simp at he
    rw [he]
  · intro rep hrep
    unfold handleRequest
    rcases haux : handleRequestAux router parse st requestCode devId blkNo raw with ⟨st1, r⟩
    rw [haux] at hrep
    simp at hrep
    rw [hrep]
  · intro doc hdoc
    rw [hdoc]
    cases hupd : update doc <;> simp [handleSendCmdResultReply, hupd]
  · intro hmiss
    rw [hmiss]
    rfl

/-- Witness for C9: a completed payload with no JSON brace makes the
envelope scan raise, and the top level answers with the internal-error
reply; a missing command document is acknowledged OK. -/
theorem c9_witness :
    handleRequest (fun _ => none) (fun _ => Except.error "parse") ⟨[], []⟩
        "realtime_glog" "D" 0 []
      = (⟨[], []⟩, failReply "Internal server error")
    ∧ handleSendCmdResultReply FetchOutcome.missing (fun c => Except.ok c) "T"
      = Except.ok (replyResponseCode "OK" "T" "" [] []) :=
  ⟨(c9_exception_boundary (fun _ => none) (fun _ => Except.error "parse") ⟨[], []⟩
      "realtime_glog" "D" 0 [] FetchOutcome.missing (fun c => Except.ok c) "T").1
      "no JSON opening brace found" rfl,
   (c9_exception_boundary (fun _ => none) (fun _ => Except.error "parse") ⟨[], []⟩
      "realtime_glog" "D" 0 [] FetchOutcome.missing (fun c => Except.ok c) "T").2.2.2.2.2
      rfl⟩

end Biometric

